import Mathlib

/-!
Verification of the rbgg library, a Rust client for the boardgamegeek.com
XML APIs. The development shallowly embeds the URL construction, parameter
merging, query-string encoding, 202-polling request executor and argument
validation of src/utils.rs, src/bgg1.rs and src/bgg2.rs, and proves the
specified properties about those definitions.
-/

/-! ## Parameter sets (utils.rs: type Params = HashMap<String, String>)

A Rust HashMap with String keys and values is modelled as an association
list whose keys are unique; the list order stands for the (semantically
irrelevant) iteration order of the map. -/

/-- Mirrors utils.rs Params, the HashMap of query parameters. -/
abbrev Params := List (String × String)

/-- HashMap insert: overwrite the value stored under an existing key in
place, or add a new binding at the end. -/
def insertP : Params → String → String → Params
  | [], k, v => [(k, v)]
  | p :: rest, k, v => if p.1 = k then (k, v) :: rest else p :: insertP rest k v

/-- HashMap lookup: the value stored under a key, if any. -/
def findP : Params → String → Option String
  | [], _ => none
  | p :: rest, k => if p.1 = k then some p.2 else findP rest k

/-- The keys of a parameter set. -/
def keysP (ps : Params) : List String := ps.map Prod.fst

/-- Mirrors utils.rs get_opts: the params from an option, empty when absent. -/
def get_opts (options : Option Params) : Params :=
  match options with
  | some o => o
  | none => []

/-! ## Percent encoding (the urlencoding crate)

Modelled from the spec: the external crate function urlencoding::encode is
not part of this repository. The spec describes it as standard URL percent
encoding: every byte of the UTF-8 form of the string is kept when it is an
ASCII alphanumeric or one of minus, dot, underscore, tilde, and otherwise
written as a percent sign followed by two uppercase hex digits. -/

/-- The UTF-8 bytes of one character, as natural numbers below 256. -/
def utf8Bytes (c : Char) : List Nat :=
  let n := c.toNat
  if n < 0x80 then [n]
  else if n < 0x800 then
    [0xC0 ||| (n >>> 6), 0x80 ||| (n &&& 0x3F)]
  else if n < 0x10000 then
    [0xE0 ||| (n >>> 12), 0x80 ||| ((n >>> 6) &&& 0x3F), 0x80 ||| (n &&& 0x3F)]
  else
    [0xF0 ||| (n >>> 18), 0x80 ||| ((n >>> 12) &&& 0x3F),
      0x80 ||| ((n >>> 6) &&& 0x3F), 0x80 ||| (n &&& 0x3F)]

/-- A byte left unescaped by percent encoding: ASCII alphanumeric or one of
minus, dot, underscore, tilde. -/
def isUnreservedByte (b : Nat) : Bool :=
  (48 ≤ b && b ≤ 57) || (65 ≤ b && b ≤ 90) || (97 ≤ b && b ≤ 122) ||
    b == 45 || b == 46 || b == 95 || b == 126

/-- Uppercase hexadecimal digit for a value below 16. -/
def hexChar (n : Nat) : Char :=
  if n < 10 then Char.ofNat (48 + n) else Char.ofNat (55 + n)

/-- One byte of percent-encoded output. -/
def encodeByte (b : Nat) : String :=
  if isUnreservedByte b then String.singleton (Char.ofNat b)
  else "%" ++ String.singleton (hexChar (b / 16)) ++ String.singleton (hexChar (b % 16))

/-- Modelled from the spec: urlencoding::encode, standard URL percent
encoding of a string, byte by byte over its UTF-8 form. -/
def encode (s : String) : String :=
  String.join ((s.data.flatMap utf8Bytes).map encodeByte)

/-- The encoded key=value rendering of one parameter pair. -/
def encPair (kv : String × String) : String := encode kv.1 ++ "=" ++ encode kv.2

/-- Mirrors utils.rs params2qs: each pair rendered as encoded key, equals
sign, encoded value, all pairs joined with ampersands in iteration order. -/
def params2qs (params : Params) : String :=
  String.intercalate "&" (params.map (fun kv => encode kv.1 ++ "=" ++ encode kv.2))

/-! ## Parameter merging (bgg1.rs and bgg2.rs: get_full_url)

Both get_full_url functions start from the caller options and insert every
default pair over them; this helper is that insertion loop. -/

/-- The insertion loop of Client1::get_full_url and Client2::get_full_url:
every default pair is inserted into the working set, overwriting any
caller-supplied value under the same key. -/
def mergeParams (opts : Params) (def_params : Params) : Params :=
  def_params.foldl (fun acc kv => insertP acc kv.1 kv.2) opts

/-! ### Lemmas about insertion and merging -/

lemma findP_insertP_self (ps : Params) (k v : String) :
    findP (insertP ps k v) k = some v := by
  induction ps with
  | nil => simp [insertP, findP]
  | cons p rest ih =>
    by_cases h : p.1 = k
    · simp [insertP, findP, h]
    · simp [insertP, findP, h, ih]

lemma findP_insertP_ne (ps : Params) (k v q : String) (h : q ≠ k) :
    findP (insertP ps k v) q = findP ps q := by
  have hk : ¬ k = q := fun he => h he.symm
  induction ps with
  | nil => simp [insertP, findP, hk]
  | cons p rest ih =>
    by_cases hp : p.1 = k
    · have hpq : ¬ p.1 = q := by rw [hp]; exact hk
      simp [insertP, findP, hp, hk, hpq, h]
    · have hins : insertP (p :: rest) k v = p :: insertP rest k v := by
        simp [insertP, hp]
      by_cases hq : p.1 = q
      · rw [hins]; simp [findP, hq]
      · rw [hins]; simp [findP, hq, ih]

lemma mergeParams_findP_notMem (opts : Params) (defs : Params) (k : String)
    (h : k ∉ keysP defs) : findP (mergeParams opts defs) k = findP opts k := by
  induction defs generalizing opts with
  | nil => simp [mergeParams]
  | cons d rest ih =>
    have hk : k ≠ d.1 := by
      intro hkd
      exact h (by simp [keysP, hkd])
    have hrest : k ∉ keysP rest := by
      intro hmem
      exact h (by simp [keysP] at hmem ⊢; exact Or.inr hmem)
    calc findP (mergeParams opts (d :: rest)) k
        = findP (mergeParams (insertP opts d.1 d.2) rest) k := by
          simp [mergeParams]
      _ = findP (insertP opts d.1 d.2) k := ih _ hrest
      _ = findP opts k := findP_insertP_ne _ _ _ _ hk

lemma mergeParams_findP_mem (opts : Params) (defs : Params) (k : String)
    (hnd : (keysP defs).Nodup) (h : k ∈ keysP defs) :
    findP (mergeParams opts defs) k = findP defs k := by
  induction defs generalizing opts with
  | nil => simp [keysP] at h
  | cons d rest ih =>
    simp only [keysP, List.map_cons, List.nodup_cons] at hnd
    by_cases hk : k = d.1
    · have hnotin : k ∉ keysP rest := by rw [hk]; exact hnd.1
      calc findP (mergeParams opts (d :: rest)) k
          = findP (mergeParams (insertP opts d.1 d.2) rest) k := by
            simp [mergeParams]
        _ = findP (insertP opts d.1 d.2) k := mergeParams_findP_notMem _ _ _ hnotin
        _ = some d.2 := by rw [hk]; exact findP_insertP_self _ _ _
        _ = findP (d :: rest) k := by rw [hk]; simp [findP]
    · have hmem : k ∈ keysP rest := by
        simp [keysP] at h
        rcases h with h | h
        · exact absurd h.symm (fun he => hk he.symm)
        · simpa [keysP] using h
      calc findP (mergeParams opts (d :: rest)) k
          = findP (mergeParams (insertP opts d.1 d.2) rest) k := by
            simp [mergeParams]
        _ = findP rest k := ih _ hnd.2 hmem
        _ = findP (d :: rest) k := by
            have hdk : ¬ d.1 = k := fun he => hk he.symm
            simp [findP, hdk]

/-! ## Clients (bgg1.rs Client1 and bgg2.rs Client2)

Each client is a record of the two URL components. The Rust structs are
immutable after construction and every method takes a shared reference; in
this embedding every operation is a pure function of the client, so the
fields cannot change during the lifetime of a client value. -/

/-- Mirrors bgg1.rs struct Client1. -/
structure Client1 where
  url_base : String
  api_prefix : String

/-- Mirrors bgg2.rs struct Client2. -/
structure Client2 where
  url_base : String
  api_prefix : String

/-- The second field of a Client1 (named accessor for the statements). -/
def apiPrefixOf1 : Client1 → String
  | ⟨_, p⟩ => p

/-- The second field of a Client2 (named accessor for the statements). -/
def apiPrefixOf2 : Client2 → String
  | ⟨_, p⟩ => p

/-- Rust str::strip_suffix with a slash pattern: remove one trailing slash
when the string ends with one, otherwise return the string unchanged. -/
def strip_suffix_slash (s : String) : String :=
  if s.data.getLast? = some '/' then String.mk s.data.dropLast else s

/-- Rust str::trim_matches with a slash pattern: remove every leading and
every trailing slash. The trailing run is removed through a reversal, then
the leading run is dropped. -/
def trim_matches_slash (s : String) : String :=
  String.mk (List.dropWhile (fun c => c == '/')
    ((List.dropWhile (fun c => c == '/') s.data.reverse).reverse))

/-- Mirrors Client1::new: defaults applied when an argument is absent, one
trailing slash stripped from the base, slashes trimmed from the prefix. -/
def Client1.new (url_base : Option String) ( api_prefix : Option String) : Client1 :=
  let ub := match url_base with
    | some u => strip_suffix_slash u
    | none => "https://boardgamegeek.com"
  let pfx := match api_prefix with
    | some p => trim_matches_slash p
    | none => "xmlapi"
  ⟨ub, pfx⟩

/-- Mirrors Client2::new: same construction with the xmlapi2 default. -/
def Client2.new (url_base : Option String) ( api_prefix : Option String) : Client2 :=
  let ub := match url_base with
    | some u => strip_suffix_slash u
    | none => "https://boardgamegeek.com"
  let pfx := match api_prefix with
    | some p => trim_matches_slash p
    | none => "xmlapi2"
  ⟨ub, pfx⟩

/-- Mirrors Client1::gen_url: base, slash, prefix, slash, path; then a
slash and the comma-joined add-ons whenever add-ons are supplied; then a
question mark always; then the encoded query string when options are
supplied. -/
def Client1.gen_url (c : Client1) (path : String) (options : Option Params)
    (uri_addons : Option (List String)) : String :=
  let ret := c.url_base ++ "/" ++ apiPrefixOf1 c ++ "/" ++ path
  let ret := match uri_addons with
    | some addons => ret ++ "/" ++ String.intercalate "," addons
    | none => ret
  let ret := ret ++ "?"
  match options with
  | some opts => ret ++ params2qs opts
  | none => ret

/-- Mirrors Client1::get_full_url: caller options with every default pair
inserted over them, handed to gen_url. -/
def Client1.get_full_url (c : Client1) (path : String) (params : Option Params)
    (default_params : Option Params) (uri_addons : Option (List String)) : String :=
  let opts := get_opts params
  let opts := match default_params with
    | some def_params => mergeParams opts def_params
    | none => opts
  Client1.gen_url c path (some opts) uri_addons

/-- Mirrors Client2::gen_url: base, slash, prefix, slash, path, question
mark; then the encoded query string when options are supplied. -/
def Client2.gen_url (c : Client2) (path : String) (options : Option Params) : String :=
  let ret := c.url_base ++ "/" ++ apiPrefixOf2 c ++ "/" ++ path ++ "?"
  match options with
  | some opts => ret ++ params2qs opts
  | none => ret

/-- Mirrors Client2::get_full_url: caller options with every default pair
inserted over them, handed to gen_url. -/
def Client2.get_full_url (c : Client2) (path : String) (params : Option Params)
    (default_params : Option Params) : String :=
  let opts := get_opts params
  let opts := match default_params with
    | some def_params => mergeParams opts def_params
    | none => opts
  Client2.gen_url c path (some opts)

/-! ## Endpoint wrappers relevant to the claims

Each definition is the URL construction of the corresponding method of the
source; the network fetch that follows is modelled separately by the
request executor. -/

/-- URL built by Client1::thread: path thread, the id as the one add-on. -/
def Client1.thread_url (c : Client1) (thread_id : Nat) (options : Option Params) : String :=
  Client1.get_full_url c "thread" options none (some [toString thread_id])

/-- URL built by Client1::thread_b: identical construction to thread. -/
def Client1.thread_b_url (c : Client1) (thread_id : Nat) (options : Option Params) : String :=
  Client1.get_full_url c "thread" options none (some [toString thread_id])

/-- URL built by Client1::geeklist: the source passes the literal thread as
the path, with the list id as the one add-on. -/
def Client1.geeklist_url (c : Client1) (list_id : Nat) (options : Option Params) : String :=
  Client1.get_full_url c "thread" options none (some [toString list_id])

/-- URL built by Client1::geeklist_b: identical construction to geeklist. -/
def Client1.geeklist_b_url (c : Client1) (list_id : Nat) (options : Option Params) : String :=
  Client1.get_full_url c "thread" options none (some [toString list_id])

/-- Mirrors bgg2.rs enum ThingFamily. -/
inductive ThingFamily where
  | thing : ThingFamily
  | family : ThingFamily

/-- Mirrors ThingFamily::as_str. -/
def ThingFamily.as_str : ThingFamily → String
  | ThingFamily.thing => "thing"
  | ThingFamily.family => "family"

/-- URL built by Client2::forum: the source passes the literal forumlist as
the path, with the forum id as the default id parameter. -/
def Client2.forum_url (c : Client2) (forum_id : Nat) (options : Option Params) : String :=
  Client2.get_full_url c "forumlist" options (some [("id", toString forum_id)])

/-- URL built by Client2::forum_b: identical construction to forum. -/
def Client2.forum_b_url (c : Client2) (forum_id : Nat) (options : Option Params) : String :=
  Client2.get_full_url c "forumlist" options (some [("id", toString forum_id)])

/-- URL built by Client2::forumlist: path forumlist, id and type as the
default parameters, no caller options. -/
def Client2.forumlist_url (c : Client2) (game_id : Nat) (ltype : ThingFamily) : String :=
  Client2.get_full_url c "forumlist" none
    (some [("id", toString game_id), ("type", ThingFamily.as_str ltype)])

/-- Mirrors the argument validation and URL construction of Client2::plays.
An ok value is the URL the method then fetches; an error value is returned
before any network request is issued. -/
def Client2.plays (c : Client2) (username : Option String) (item_id : Option Nat)
    (ttype : Option ThingFamily) (options : Option Params) : Except String String :=
  if username.isNone && (item_id.isNone || ttype.isNone) then
    Except.error "You must supply either a username or item_id + ttype"
  else if username.isSome && item_id.isSome then
    Except.error "You must supply either a username or item_id + ttype, not both"
  else
    match username, item_id, ttype with
    | some u, _, _ =>
      Except.ok (Client2.get_full_url c "plays" options (some [("username", u)]))
    | none, some id, some t =>
      Except.ok (Client2.get_full_url c "plays" options
        (some [("id", toString id), ("type", ThingFamily.as_str t)]))
    | _, _, _ =>
      Except.error "We have a logic bug here as this should never happen"

/-- Mirrors Client2::plays_b, whose body repeats the validation and URL
construction of plays. -/
def Client2.plays_b (c : Client2) (username : Option String) (item_id : Option Nat)
    (ttype : Option ThingFamily) (options : Option Params) : Except String String :=
  if username.isNone && (item_id.isNone || ttype.isNone) then
    Except.error "You must supply either a username or item_id + ttype"
  else if username.isSome && item_id.isSome then
    Except.error "You must supply either a username or item_id + ttype, not both"
  else
    match username, item_id, ttype with
    | some u, _, _ =>
      Except.ok (Client2.get_full_url c "plays" options (some [("username", u)]))
    | none, some id, some t =>
      Except.ok (Client2.get_full_url c "plays" options
        (some [("id", toString id), ("type", ThingFamily.as_str t)]))
    | _, _, _ =>
      Except.error "We have a logic bug here as this should never happen"

/-! ## Request executor (utils.rs: get_json_resp and get_json_resp_b)

The HTTP layer is modelled by a server function giving the outcome of the
i-th GET issued by one call: either a transport failure (reqwest returning
an error, propagated at once) or a response with a status code and a body.
The XML normalizer xmltojson::to_json is an external collaborator and is
modelled by a parse function; a none result stands for its error case.
Each executor records a trace of its side effects: one request event per
GET issued and one sleep event per one-second suspension of the 202 loop.
The first argument of the recursion is fuel bounding how many loop
iterations are observed; the second is the index of the next response. A
none outcome means the loop was still running when the fuel ran out. -/

/-- Outcome of one HTTP GET. -/
inductive HttpResult where
  | transportErr : HttpResult
  | success : Nat → String → HttpResult
deriving DecidableEq

/-- Observable side effect of the executor. -/
inductive RespEvent where
  | request : String → RespEvent
  | sleepSecs : Nat → RespEvent
deriving DecidableEq

/-- The two error kinds a completed call can return: a propagated transport
error, or the failure to convert the body to JSON. -/
inductive ExecError where
  | transport : ExecError
  | conversion : ExecError
deriving DecidableEq

/-- Mirrors utils.rs get_json_resp: request the URL; on a 202 status sleep
one second and request the same URL again; on any other status hand the
body to the normalizer; a transport failure is propagated at once. -/
def get_json_resp {α : Type} (parse : String → Option α) (url : String)
    (server : Nat → HttpResult) :
    Nat → Nat → List RespEvent × Option (Except ExecError α)
  | 0, _ => ([], none)
  | fuel + 1, i =>
    match server i with
    | HttpResult.transportErr =>
      ([RespEvent.request url], some (Except.error ExecError.transport))
    | HttpResult.success status body =>
      if status == 202 then
        let rest := get_json_resp parse url server fuel (i + 1)
        (RespEvent.request url :: RespEvent.sleepSecs 1 :: rest.1, rest.2)
      else
        ([RespEvent.request url],
          some (match parse body with
            | some v => Except.ok v
            | none => Except.error ExecError.conversion))

/-- Mirrors utils.rs get_json_resp_b, whose body repeats the loop of
get_json_resp with the blocking request and sleep primitives. -/
def get_json_resp_b {α : Type} (parse : String → Option α) (url : String)
    (server : Nat → HttpResult) :
    Nat → Nat → List RespEvent × Option (Except ExecError α)
  | 0, _ => ([], none)
  | fuel + 1, i =>
    match server i with
    | HttpResult.transportErr =>
      ([RespEvent.request url], some (Except.error ExecError.transport))
    | HttpResult.success status body =>
      if status == 202 then
        let rest := get_json_resp_b parse url server fuel (i + 1)
        (RespEvent.request url :: RespEvent.sleepSecs 1 :: rest.1, rest.2)
      else
        ([RespEvent.request url],
          some (match parse body with
            | some v => Except.ok v
            | none => Except.error ExecError.conversion))

/-- Whether a response makes the loop sleep and retry: a 202 status. -/
def isRetry : HttpResult → Bool
  | HttpResult.transportErr => false
  | HttpResult.success status _ => status == 202

/-- What a completed call returns for its final response: the propagated
transport error, or the parsed body, or the conversion error. -/
def finalResult {α : Type} (parse : String → Option α) : HttpResult → Except ExecError α
  | HttpResult.transportErr => Except.error ExecError.transport
  | HttpResult.success _ body =>
    match parse body with
    | some v => Except.ok v
    | none => Except.error ExecError.conversion

/-- The trace of a call that sees n leading 202 responses and then stops:
a request, then n times a one-second sleep and a repeated request. -/
def pollTrace (url : String) : Nat → List RespEvent
  | 0 => [RespEvent.request url]
  | n + 1 => RespEvent.request url :: RespEvent.sleepSecs 1 :: pollTrace url n

/-- The trace of n iterations of a loop that never stops retrying. -/
def loopTrace (url : String) : Nat → List RespEvent
  | 0 => []
  | n + 1 => RespEvent.request url :: RespEvent.sleepSecs 1 :: loopTrace url n

/-- Number of sleep events in a trace. -/
def numSleeps : List RespEvent → Nat
  | [] => 0
  | RespEvent.sleepSecs _ :: rest => numSleeps rest + 1
  | RespEvent.request _ :: rest => numSleeps rest

/-- Number of request events in a trace. -/
def numRequests : List RespEvent → Nat
  | [] => 0
  | RespEvent.request _ :: rest => numRequests rest + 1
  | RespEvent.sleepSecs _ :: rest => numRequests rest

/-! ### Lemmas about the executor -/

lemma get_json_resp_b_eq {α : Type} (parse : String → Option α) (url : String)
    (server : Nat → HttpResult) :
    ∀ fuel i, get_json_resp_b parse url server fuel i =
      get_json_resp parse url server fuel i := by
  intro fuel
  induction fuel with
  | zero => intro i; rfl
  | succ f ih =>
    intro i
    simp only [get_json_resp, get_json_resp_b]
    cases server i with
    | transportErr => rfl
    | success status body =>
      by_cases h : status == 202
      · simp [h, ih]
      · simp [h]

lemma get_json_resp_poll {α : Type} (parse : String → Option α) (url : String)
    (server : Nat → HttpResult) :
    ∀ n i fuel, (∀ j, j < n → isRetry (server (i + j)) = true) →
      isRetry (server (i + n)) = false → n < fuel →
      get_json_resp parse url server fuel i =
        (pollTrace url n, some (finalResult parse (server (i + n)))) := by
  intro n
  induction n with
  | zero =>
    intro i fuel _ hstop hfuel
    obtain ⟨f, rfl⟩ : ∃ f, fuel = f + 1 := ⟨fuel - 1, by omega⟩
    simp only [Nat.add_zero] at hstop
    cases hsrv : server i with
    | transportErr =>
      simp [get_json_resp, hsrv, pollTrace, finalResult]
    | success status body =>
      rw [hsrv] at hstop
      simp only [isRetry] at hstop
      simp only [get_json_resp, hsrv, hstop]
      cases hp : parse body with
      | none => simp [pollTrace, finalResult, hp, hsrv]
      | some v => simp [pollTrace, finalResult, hp, hsrv]
  | succ n ih =>
    intro i fuel hall hstop hfuel
    obtain ⟨f, rfl⟩ : ∃ f, fuel = f + 1 := ⟨fuel - 1, by omega⟩
    have h0 : isRetry (server i) = true := by
      have := hall 0 (Nat.succ_pos n)
      simpa using this
    cases hsrv : server i with
    | transportErr => rw [hsrv] at h0; simp [isRetry] at h0
    | success status body =>
      rw [hsrv] at h0
      simp only [isRetry] at h0
      have hrec : get_json_resp parse url server f (i + 1) =
          (pollTrace url n, some (finalResult parse (server (i + 1 + n)))) := by
        apply ih
        · intro j hj
          have := hall (j + 1) (by omega)
          have harr : i + (j + 1) = i + 1 + j := by omega
          rwa [harr] at this
        · have harr : i + (n + 1) = i + 1 + n := by omega
          rwa [harr] at hstop
        · omega
      have harr : i + 1 + n = i + (n + 1) := by omega
      rw [harr] at hrec
      simp only [get_json_resp, hsrv, h0, if_pos rfl, hrec, pollTrace]
      simp

lemma get_json_resp_all202 {α : Type} (parse : String → Option α) (url : String)
    (server : Nat → HttpResult) (hall : ∀ j, isRetry (server j) = true) :
    ∀ fuel i, get_json_resp parse url server fuel i = (loopTrace url fuel, none) := by
  intro fuel
  induction fuel with
  | zero => intro i; rfl
  | succ f ih =>
    intro i
    have h0 : isRetry (server i) = true := hall i
    cases hsrv : server i with
    | transportErr => rw [hsrv] at h0; simp [isRetry] at h0
    | success status body =>
      rw [hsrv] at h0
      simp only [isRetry] at h0
      simp only [get_json_resp, hsrv, h0, if_pos rfl, ih, loopTrace]
      simp

lemma numSleeps_pollTrace (url : String) : ∀ n, numSleeps (pollTrace url n) = n := by
  intro n
  induction n with
  | zero => rfl
  | succ n ih => simp [pollTrace, numSleeps, ih]

lemma numRequests_pollTrace (url : String) :
    ∀ n, numRequests (pollTrace url n) = n + 1 := by
  intro n
  induction n with
  | zero => rfl
  | succ n ih => simp [pollTrace, numRequests, ih]

lemma mem_pollTrace (url : String) :
    ∀ n e, e ∈ pollTrace url n → e = RespEvent.request url ∨ e = RespEvent.sleepSecs 1 := by
  intro n
  induction n with
  | zero =>
    intro e he
    simp [pollTrace] at he
    exact Or.inl he
  | succ n ih =>
    intro e he
    simp only [pollTrace, List.mem_cons] at he
    rcases he with h | h | h
    · exact Or.inl h
    · exact Or.inr h
    · exact ih e h

lemma numSleeps_loopTrace (url : String) : ∀ n, numSleeps (loopTrace url n) = n := by
  intro n
  induction n with
  | zero => rfl
  | succ n ih => simp [loopTrace, numSleeps, ih]

lemma numRequests_loopTrace (url : String) :
    ∀ n, numRequests (loopTrace url n) = n := by
  intro n
  induction n with
  | zero => rfl
  | succ n ih => simp [loopTrace, numRequests, ih]

lemma mem_loopTrace (url : String) :
    ∀ n e, e ∈ loopTrace url n → e = RespEvent.request url ∨ e = RespEvent.sleepSecs 1 := by
  intro n
  induction n with
  | zero => intro e he; simp [loopTrace] at he
  | succ n ih =>
    intro e he
    simp only [loopTrace, List.mem_cons] at he
    rcases he with h | h | h
    · exact Or.inl h
    · exact Or.inr h
    · exact ih e h

/-! ### Slash predicates and lemmas for the constructor invariants -/

/-- Whether a string ends with a slash. -/
def lastCharIsSlash (s : String) : Bool := s.data.getLast? == some '/'

/-- Whether a string starts with a slash. -/
def headCharIsSlash (s : String) : Bool := s.data.head? == some '/'

/-- Whether a string ends with two slashes. -/
def lastTwoSlashes (s : String) : Bool :=
  (s.data.getLast? == some '/') && (s.data.dropLast.getLast? == some '/')

lemma head_dropWhile_slash (l : List Char) :
    (List.dropWhile (fun c => c == '/') l).head? ≠ some '/' := by
  induction l with
  | nil => simp [List.dropWhile]
  | cons a rest ih =>
    by_cases h : a = '/'
    · simpa [List.dropWhile_cons, h] using ih
    · simp [List.dropWhile_cons, h]

lemma getLast_dropWhile (p : Char → Bool) (l : List Char) :
    List.dropWhile p l = [] ∨ (List.dropWhile p l).getLast? = l.getLast? := by
  induction l with
  | nil => exact Or.inl rfl
  | cons a rest ih =>
    by_cases h : p a
    · rcases ih with ih | ih
      · exact Or.inl (by simp [List.dropWhile, h, ih])
      · rcases hr : rest with _ | ⟨b, rest2⟩
        · subst hr
          exact Or.inl (by simp [List.dropWhile, h])
        · subst hr
          refine Or.inr ?_
          rw [List.dropWhile_cons_of_pos h, ih, List.getLast?_cons_cons]
    · exact Or.inr (by simp [List.dropWhile_cons_of_neg h])

lemma trim_no_leading_slash (s : String) :
    headCharIsSlash (trim_matches_slash s) = false := by
  have h := head_dropWhile_slash ((List.dropWhile (fun c => c == '/') s.data.reverse).reverse)
  simp only [headCharIsSlash, trim_matches_slash]
  cases hx : (List.dropWhile (fun c => c == '/')
      ((List.dropWhile (fun c => c == '/') s.data.reverse).reverse)).head? with
  | none => rfl
  | some c =>
    rw [hx] at h
    have : ¬ c = '/' := fun he => h (by rw [he])
    simp [this]

lemma trim_no_trailing_slash (s : String) :
    lastCharIsSlash (trim_matches_slash s) = false := by
  have hy : ((List.dropWhile (fun c => c == '/') s.data.reverse).reverse).getLast? ≠
      some '/' := by
    rw [List.getLast?_reverse]
    exact head_dropWhile_slash s.data.reverse
  have hlast : (List.dropWhile (fun c => c == '/')
      ((List.dropWhile (fun c => c == '/') s.data.reverse).reverse)).getLast? ≠
      some '/' := by
    rcases getLast_dropWhile (fun c => c == '/')
        ((List.dropWhile (fun c => c == '/') s.data.reverse).reverse) with h | h
    · rw [h]; simp
    · rw [h]; exact hy
  simp only [lastCharIsSlash, trim_matches_slash]
  cases hx : (List.dropWhile (fun c => c == '/')
      ((List.dropWhile (fun c => c == '/') s.data.reverse).reverse)).getLast? with
  | none => rfl
  | some c =>
    rw [hx] at hlast
    have : ¬ c = '/' := fun he => hlast (by rw [he])
    simp [this]

lemma strip_one_slash_ok (s : String) (h : lastTwoSlashes s = false) :
    lastCharIsSlash (strip_suffix_slash s) = false := by
  simp only [lastTwoSlashes, Bool.and_eq_false_iff] at h
  by_cases hl : s.data.getLast? = some '/'
  · have h2 : (s.data.dropLast.getLast? == some '/') = false := by
      rcases h with h | h
      · rw [hl] at h; simp at h
      · exact h
    simp only [strip_suffix_slash, if_pos hl, lastCharIsSlash]
    exact h2
  · simp only [strip_suffix_slash, if_neg hl, lastCharIsSlash]
    cases hx : s.data.getLast? with
    | none => rfl
    | some c =>
      have : ¬ c = '/' := fun he => hl (by rw [hx, he])
      simp [this]

/-! ## Claim theorems -/

/-- C1: for every caller parameter set and every default parameter set (whose
keys, as HashMap keys, are unique), the merged set built by get_full_url maps
every key present in the defaults to the default value, overwriting any
caller-supplied value for the same key, while keys present only in the caller
set keep their caller value; both Client1::get_full_url and
Client2::get_full_url build their URL from exactly this merged set. -/
theorem c1_merge_default_wins (caller defaults : Params) (k : String)
    (hnd : (keysP defaults).Nodup) :
    (k ∈ keysP defaults →
      findP (mergeParams caller defaults) k = findP defaults k) ∧
    (k ∉ keysP defaults →
      findP (mergeParams caller defaults) k = findP caller k) ∧
    (∀ c path options uri_addons,
      Client1.get_full_url c path options (some defaults) uri_addons =
        Client1.gen_url c path (some (mergeParams (get_opts options) defaults)) uri_addons) ∧
    (∀ c path options,
      Client2.get_full_url c path options (some defaults) =
        Client2.gen_url c path (some (mergeParams (get_opts options) defaults))) :=
  ⟨fun h => mergeParams_findP_mem _ _ _ hnd h,
    fun h => mergeParams_findP_notMem _ _ _ h,
    fun _ _ _ _ => rfl,
    fun _ _ _ => rfl⟩

/-- C1 witness: a caller value under the key type is overwritten by the
default value, at concrete parameter sets. -/
theorem c1_merge_default_wins_witness :
    ("type" ∈ keysP [("type", "forced"), ("page", "1")] →
      findP (mergeParams [("type", "caller"), ("q", "x")]
        [("type", "forced"), ("page", "1")]) "type" =
        findP [("type", "forced"), ("page", "1")] "type") ∧
    ("type" ∉ keysP [("type", "forced"), ("page", "1")] →
      findP (mergeParams [("type", "caller"), ("q", "x")]
        [("type", "forced"), ("page", "1")]) "type" =
        findP [("type", "caller"), ("q", "x")] "type") ∧
    (∀ c path options uri_addons,
      Client1.get_full_url c path options (some [("type", "forced"), ("page", "1")]) uri_addons =
        Client1.gen_url c path
          (some (mergeParams (get_opts options) [("type", "forced"), ("page", "1")])) uri_addons) ∧
    (∀ c path options,
      Client2.get_full_url c path options (some [("type", "forced"), ("page", "1")]) =
        Client2.gen_url c path
          (some (mergeParams (get_opts options) [("type", "forced"), ("page", "1")]))) :=
  c1_merge_default_wins [("type", "caller"), ("q", "x")]
    [("type", "forced"), ("page", "1")] "type" (by decide)

/-- C5: params2qs renders each pair exactly once as encoded key, equals sign,
encoded value, all joined by ampersands in the iteration order of the set;
the empty set yields the empty string; space, equals, ampersand, slash,
question mark and non-ASCII characters are percent encoded. The function is
a total pure function over arbitrary strings. -/
theorem c5_params2qs_encoding :
    (∀ ps : Params, ∃ parts : List String,
      parts.Perm (ps.map encPair) ∧ params2qs ps = String.intercalate "&" parts) ∧
    params2qs [] = "" ∧
    params2qs [("key", "value")] = "key=value" ∧
    params2qs [("a", "1"), ("b", "2")] = "a=1&b=2" ∧
    encode "a b" = "a%20b" ∧ encode "=" = "%3D" ∧ encode "&" = "%26" ∧
    encode "/" = "%2F" ∧ encode "?" = "%3F" ∧ encode "é" = "%C3%A9" :=
  ⟨fun ps => ⟨ps.map encPair, List.Perm.refl _, rfl⟩,
    rfl, rfl, rfl, rfl, rfl, rfl, rfl, rfl, rfl⟩

/-- C4 counterexample: the claim states the slash and joined add-ons appear
exactly when add-ons are present and non-empty, but with add-ons present and
empty the code still appends the slash, so the built URL ends in a bare
slash and question mark rather than the bare question mark the claim
predicts (reachable through, for example, boardgame with an empty id list). -/
theorem c4_counterexample :
    Client1.gen_url (Client1.new none none) "boardgame" none (some []) =
      "https://boardgamegeek.com/xmlapi/boardgame/?" ∧
    Client1.gen_url (Client1.new none none) "boardgame" none (some []) ≠
      "https://boardgamegeek.com/xmlapi/boardgame?" :=
  ⟨rfl, by decide⟩

/-- C4 amended: the built URL is the base, a slash, the prefix, a slash and
the operation name, then a slash and the comma-joined add-ons exactly when
add-ons are present (even when the list is empty, which yields a bare
trailing slash segment), then a literal question mark always, then the
encoded query string; the documented example with add-ons 1 and 2 and no
parameters yields exactly the expected URL. -/
theorem c4_gen_url_amended (c : Client1) (path : String) (options : Option Params)
    (uri_addons : Option (List String)) :
    Client1.gen_url c path options uri_addons =
      c.url_base ++ "/" ++ apiPrefixOf1 c ++ "/" ++ path ++
        (match uri_addons with
          | some addons => "/" ++ String.intercalate "," addons
          | none => "") ++
        "?" ++
        (match options with
          | some opts => params2qs opts
          | none => "") ∧
    Client1.gen_url (Client1.new none none) "boardgame" none (some ["1", "2"]) =
      "https://boardgamegeek.com/xmlapi/boardgame/1,2?" ∧
    Client1.gen_url (Client1.new none none) "boardgame" (some []) (some ["1", "2"]) =
      "https://boardgamegeek.com/xmlapi/boardgame/1,2?" := by
  refine ⟨?_, rfl, rfl⟩
  cases uri_addons with
  | none =>
    cases options with
    | none => simp [Client1.gen_url, String.append_assoc]
    | some opts => simp [Client1.gen_url, String.append_assoc]
  | some addons =>
    cases options with
    | none => simp [Client1.gen_url, String.append_assoc]
    | some opts => simp [Client1.gen_url, String.append_assoc]

/-- C6 counterexample: the claim states the constructed url_base never has a
trailing slash, but the constructor strips at most one trailing slash, so a
base argument ending in two slashes keeps one. -/
theorem c6_counterexample :
    (Client1.new (some "https://example.com//") none).url_base =
      "https://example.com/" ∧
    lastCharIsSlash ((Client1.new (some "https://example.com//") none).url_base) =
      true :=
  ⟨by decide, by decide⟩

/-- C6 amended: for both clients the constructed prefix has no leading and no
trailing slash (all slashes are trimmed, defaults included); the constructed
url_base is exactly the caller string with one trailing slash removed when
one is present, hence it has no trailing slash whenever the caller string
does not end in two slashes, and the defaults apply when an argument is
absent. The fields are immutable: every operation of the embedding is a pure
function of the client value. -/
theorem c6_constructor_invariants (base_arg pfx_arg : Option String) :
    headCharIsSlash (apiPrefixOf1 (Client1.new base_arg pfx_arg)) = false ∧
    lastCharIsSlash (apiPrefixOf1 (Client1.new base_arg pfx_arg)) = false ∧
    headCharIsSlash (apiPrefixOf2 (Client2.new base_arg pfx_arg)) = false ∧
    lastCharIsSlash (apiPrefixOf2 (Client2.new base_arg pfx_arg)) = false ∧
    (Client1.new none pfx_arg).url_base = "https://boardgamegeek.com" ∧
    (Client2.new none pfx_arg).url_base = "https://boardgamegeek.com" ∧
    apiPrefixOf1 (Client1.new base_arg none) = "xmlapi" ∧
    apiPrefixOf2 (Client2.new base_arg none) = "xmlapi2" ∧
    (∀ u, (Client1.new (some u) pfx_arg).url_base = strip_suffix_slash u) ∧
    (∀ u, (Client2.new (some u) pfx_arg).url_base = strip_suffix_slash u) ∧
    (∀ u, lastTwoSlashes u = false →
      lastCharIsSlash ((Client1.new (some u) pfx_arg).url_base) = false) ∧
    (∀ u, lastTwoSlashes u = false →
      lastCharIsSlash ((Client2.new (some u) pfx_arg).url_base) = false) := by
  refine ⟨?_, ?_, ?_, ?_, rfl, rfl, rfl, rfl, fun u => rfl, fun u => rfl,
    fun u h => strip_one_slash_ok u h, fun u h => strip_one_slash_ok u h⟩
  all_goals cases pfx_arg with
  | none => rfl
  | some p => first
    | exact trim_no_leading_slash p
    | exact trim_no_trailing_slash p

/-- C2: for every response sequence, both executors re-issue an identical GET
to the same URL after exactly one fixed one-second sleep per leading 202
response, and complete at the first response whose status is not 202,
returning the normalized body; the trace holds one request per iteration,
every request names the same URL and every sleep lasts one second. -/
theorem c2_poll_until_non202 {α : Type} (parse : String → Option α) (url : String)
    (server : Nat → HttpResult) (n fuel status : Nat) (body : String) (v : α)
    (h202 : ∀ j, j < n → isRetry (server j) = true)
    (hstop : server n = HttpResult.success status body)
    (hstatus : status ≠ 202)
    (hparse : parse body = some v)
    (hfuel : n < fuel) :
    get_json_resp parse url server fuel 0 = (pollTrace url n, some (Except.ok v)) ∧
    get_json_resp_b parse url server fuel 0 = (pollTrace url n, some (Except.ok v)) ∧
    numSleeps (pollTrace url n) = n ∧
    numRequests (pollTrace url n) = n + 1 ∧
    (∀ e, e ∈ pollTrace url n → e = RespEvent.request url ∨ e = RespEvent.sleepSecs 1) := by
  have hretry : isRetry (server (0 + n)) = false := by
    simp only [Nat.zero_add, hstop, isRetry]
    simp [hstatus]
  have h202z : ∀ j, j < n → isRetry (server (0 + j)) = true := by
    intro j hj
    simpa using h202 j hj
  have hrun := get_json_resp_poll parse url server n 0 fuel h202z hretry hfuel
  have hfin : finalResult parse (server (0 + n)) = Except.ok v := by
    simp only [Nat.zero_add, hstop, finalResult, hparse]
  rw [hfin] at hrun
  exact ⟨hrun, by rw [get_json_resp_b_eq]; exact hrun, numSleeps_pollTrace url n,
    numRequests_pollTrace url n, mem_pollTrace url n⟩

/-- C2 witness: a server answering 202 twice and then 200 causes exactly two
one-second sleeps before the third response body is parsed and returned. -/
theorem c2_poll_until_non202_witness :
    get_json_resp (fun s => if s = "<result/>" then some (1 : Nat) else none) "u"
        (fun i => if i < 2 then HttpResult.success 202 "queued"
          else HttpResult.success 200 "<result/>") 3 0 =
      (pollTrace "u" 2, some (Except.ok 1)) ∧
    get_json_resp_b (fun s => if s = "<result/>" then some (1 : Nat) else none) "u"
        (fun i => if i < 2 then HttpResult.success 202 "queued"
          else HttpResult.success 200 "<result/>") 3 0 =
      (pollTrace "u" 2, some (Except.ok 1)) ∧
    numSleeps (pollTrace "u" 2) = 2 ∧
    numRequests (pollTrace "u" 2) = 2 + 1 ∧
    (∀ e, e ∈ pollTrace "u" 2 →
      e = RespEvent.request "u" ∨ e = RespEvent.sleepSecs 1) :=
  c2_poll_until_non202 (fun s => if s = "<result/>" then some (1 : Nat) else none) "u"
    (fun i => if i < 2 then HttpResult.success 202 "queued"
      else HttpResult.success 200 "<result/>") 2 3 200 "<result/>" 1
    (fun j hj => by interval_cases j <;> rfl) rfl (by decide) (by decide) (by decide)

/-- C3: the 202 loop is unbounded: on a server that always answers 202,
neither executor ever completes or returns an error within any number of
iterations, and after n iterations the trace shows n requests, each preceded
by the same constant one-second sleep pattern. -/
theorem c3_unbounded_retry {α : Type} (parse : String → Option α) (url : String)
    (server : Nat → HttpResult)
    (hall : ∀ j, isRetry (server j) = true) (fuel : Nat) :
    get_json_resp parse url server fuel 0 = (loopTrace url fuel, none) ∧
    get_json_resp_b parse url server fuel 0 = (loopTrace url fuel, none) ∧
    numRequests (loopTrace url fuel) = fuel ∧
    numSleeps (loopTrace url fuel) = fuel ∧
    (∀ e, e ∈ loopTrace url fuel →
      e = RespEvent.request url ∨ e = RespEvent.sleepSecs 1) := by
  have h := get_json_resp_all202 parse url server hall fuel 0
  exact ⟨h, by rw [get_json_resp_b_eq]; exact h, numRequests_loopTrace url fuel,
    numSleeps_loopTrace url fuel, mem_loopTrace url fuel⟩

/-- C3 witness: on a server answering only 202, three iterations end with no
result and a trace of three identical requests and three one-second sleeps. -/
theorem c3_unbounded_retry_witness :
    get_json_resp (fun s => if s = "<result/>" then some (1 : Nat) else none) "u"
        (fun _ => HttpResult.success 202 "queued") 3 0 = (loopTrace "u" 3, none) ∧
    get_json_resp_b (fun s => if s = "<result/>" then some (1 : Nat) else none) "u"
        (fun _ => HttpResult.success 202 "queued") 3 0 = (loopTrace "u" 3, none) ∧
    numRequests (loopTrace "u" 3) = 3 ∧
    numSleeps (loopTrace "u" 3) = 3 ∧
    (∀ e, e ∈ loopTrace "u" 3 →
      e = RespEvent.request "u" ∨ e = RespEvent.sleepSecs 1) :=
  c3_unbounded_retry (fun s => if s = "<result/>" then some (1 : Nat) else none) "u"
    (fun _ => HttpResult.success 202 "queued") (fun _ => rfl) 3

/-- C7: a completed request returns an error exactly when the transport
fails or the body fails to parse; the two error kinds are distinct; a non
202 status, 4xx and 5xx included, never by itself produces an error, the
body being handed to normalization regardless of the status; the blocking
executor returns the same outcome. -/
theorem c7_error_iff_transport_or_conversion {α : Type} (parse : String → Option α)
    (url : String) (server : Nat → HttpResult) (n fuel : Nat)
    (h202 : ∀ j, j < n → isRetry (server j) = true)
    (hstop : isRetry (server n) = false)
    (hfuel : n < fuel) :
    ((get_json_resp parse url server fuel 0).2 =
        some (Except.error ExecError.transport) ↔
      server n = HttpResult.transportErr) ∧
    ((get_json_resp parse url server fuel 0).2 =
        some (Except.error ExecError.conversion) ↔
      (∃ status body, server n = HttpResult.success status body ∧
        parse body = none)) ∧
    (∀ status body v, server n = HttpResult.success status body →
      parse body = some v →
      (get_json_resp parse url server fuel 0).2 = some (Except.ok v)) ∧
    ((∃ e, (get_json_resp parse url server fuel 0).2 = some (Except.error e)) ↔
      (server n = HttpResult.transportErr ∨
        ∃ status body, server n = HttpResult.success status body ∧
          parse body = none)) ∧
    ExecError.transport ≠ ExecError.conversion ∧
    (get_json_resp_b parse url server fuel 0).2 =
      (get_json_resp parse url server fuel 0).2 := by
  have hretry : isRetry (server (0 + n)) = false := by simpa using hstop
  have h202z : ∀ j, j < n → isRetry (server (0 + j)) = true := by
    intro j hj
    simpa using h202 j hj
  have hrun := get_json_resp_poll parse url server n 0 fuel h202z hretry hfuel
  have hrun2 : (get_json_resp parse url server fuel 0).2 =
      some (finalResult parse (server n)) := by
    rw [hrun]
    simp
  have hb : (get_json_resp_b parse url server fuel 0).2 =
      (get_json_resp parse url server fuel 0).2 := by
    rw [get_json_resp_b_eq]
  refine ⟨?_, ?_, ?_, ?_, by decide, hb⟩
  · rw [hrun2]
    cases hsrv : server n with
    | transportErr => simp [finalResult]
    | success status body =>
      cases hp : parse body <;> simp [finalResult, hp]
  · rw [hrun2]
    cases hsrv : server n with
    | transportErr => simp [finalResult]
    | success status body =>
      cases hp : parse body <;> simp [finalResult, hp]
      exact ⟨status, body, ⟨rfl, rfl⟩, hp⟩
  · intro s2 b2 v2 hs2 hp2
    rw [hrun2, hs2]
    simp [finalResult, hp2]
  · rw [hrun2]
    cases hsrv : server n with
    | transportErr => simp [finalResult]
    | success status body =>
      cases hp : parse body <;> simp [finalResult, hp]
      exact ⟨status, body, ⟨rfl, rfl⟩, hp⟩

/-- C7 witness: a 404 response with a body the parser rejects yields the
conversion error and no transport error, at a concrete server. -/
theorem c7_error_iff_transport_or_conversion_witness :
    ((get_json_resp (fun s => if s = "ok" then some (0 : Nat) else none) "u"
        (fun _ => HttpResult.success 404 "<bad") 1 0).2 =
        some (Except.error ExecError.transport) ↔
      (fun _ => HttpResult.success 404 "<bad") 0 = HttpResult.transportErr) ∧
    ((get_json_resp (fun s => if s = "ok" then some (0 : Nat) else none) "u"
        (fun _ => HttpResult.success 404 "<bad") 1 0).2 =
        some (Except.error ExecError.conversion) ↔
      (∃ status body,
        (fun _ => HttpResult.success 404 "<bad") 0 = HttpResult.success status body ∧
        (fun s => if s = "ok" then some (0 : Nat) else none) body = none)) ∧
    (∀ status body v,
      (fun _ => HttpResult.success 404 "<bad") 0 = HttpResult.success status body →
      (fun s => if s = "ok" then some (0 : Nat) else none) body = some v →
      (get_json_resp (fun s => if s = "ok" then some (0 : Nat) else none) "u"
        (fun _ => HttpResult.success 404 "<bad") 1 0).2 = some (Except.ok v)) ∧
    ((∃ e, (get_json_resp (fun s => if s = "ok" then some (0 : Nat) else none) "u"
        (fun _ => HttpResult.success 404 "<bad") 1 0).2 = some (Except.error e)) ↔
      ((fun _ => HttpResult.success 404 "<bad") 0 = HttpResult.transportErr ∨
        ∃ status body,
          (fun _ => HttpResult.success 404 "<bad") 0 = HttpResult.success status body ∧
          (fun s => if s = "ok" then some (0 : Nat) else none) body = none)) ∧
    ExecError.transport ≠ ExecError.conversion ∧
    (get_json_resp_b (fun s => if s = "ok" then some (0 : Nat) else none) "u"
        (fun _ => HttpResult.success 404 "<bad") 1 0).2 =
      (get_json_resp (fun s => if s = "ok" then some (0 : Nat) else none) "u"
        (fun _ => HttpResult.success 404 "<bad") 1 0).2 :=
  c7_error_iff_transport_or_conversion
    (fun s => if s = "ok" then some (0 : Nat) else none) "u"
    (fun _ => HttpResult.success 404 "<bad") 0 1
    (fun j hj => absurd hj (Nat.not_lt_zero j)) (by decide) (by decide)

/-- C8: plays and plays_b return a validation error exactly when username is
absent and item id or ttype is absent, or when both username and item id are
supplied; in every other combination no pre-network error is raised and the
URL to request is produced (an error return means the method stops before
any network request is issued). -/
theorem c8_plays_validation (c : Client2) (username : Option String)
    (item_id : Option Nat) (ttype : Option ThingFamily) (options : Option Params) :
    ((∃ e, Client2.plays c username item_id ttype options = Except.error e) ↔
      ((username = none ∧ (item_id = none ∨ ttype = none)) ∨
        (username ≠ none ∧ item_id ≠ none))) ∧
    Client2.plays_b c username item_id ttype options =
      Client2.plays c username item_id ttype options := by
  cases username <;> cases item_id <;> cases ttype <;>
    simp [Client2.plays, Client2.plays_b]

/-- C9: geeklist and geeklist_b build exactly the URL that thread and
thread_b build for the same numeric id and options, the operation segment
being the literal thread; the geeklist endpoint is never named in the URL. -/
theorem c9_geeklist_builds_thread_url (c : Client1) (list_id : Nat)
    (options : Option Params) :
    Client1.geeklist_url c list_id options = Client1.thread_url c list_id options ∧
    Client1.geeklist_b_url c list_id options =
      Client1.thread_b_url c list_id options ∧
    Client1.geeklist_url c list_id options =
      Client1.get_full_url c "thread" options none (some [toString list_id]) ∧
    Client1.geeklist_url (Client1.new none none) 5 none =
      "https://boardgamegeek.com/xmlapi/thread/5?" ∧
    Client1.geeklist_url (Client1.new none none) 5 none ≠
      "https://boardgamegeek.com/xmlapi/geeklist/5?" :=
  ⟨rfl, rfl, rfl, rfl, by decide⟩

/-- C10: forum and forum_b build their URL with the operation segment
forumlist and the forum id under the id key of the query string, so the
forum endpoint is never named in the URL. -/
theorem c10_forum_builds_forumlist_url (c : Client2) (forum_id : Nat)
    (options : Option Params) :
    Client2.forum_url c forum_id options =
      c.url_base ++ "/" ++ apiPrefixOf2 c ++ "/" ++ "forumlist" ++ "?" ++
        params2qs (mergeParams (get_opts options) [("id", toString forum_id)]) ∧
    findP (mergeParams (get_opts options) [("id", toString forum_id)]) "id" =
      some (toString forum_id) ∧
    Client2.forum_b_url c forum_id options = Client2.forum_url c forum_id options ∧
    Client2.forum_url (Client2.new none none) 7 none =
      "https://boardgamegeek.com/xmlapi2/forumlist?id=7" ∧
    Client2.forum_url (Client2.new none none) 7 none ≠
      "https://boardgamegeek.com/xmlapi2/forum?id=7" := by
  refine ⟨rfl, ?_, rfl, rfl, by decide⟩
  have h := findP_insertP_self (get_opts options) "id" (toString forum_id)
  simpa [mergeParams] using h
